import Mathlib

/-!
Verification development for the resort-accessibility catalog application
(`src/app.py`): a CRUD controller over one relational table of beach-resort
records carrying accessibility feature flags.

The embedding models, from the source:
* Python string helpers used by the app (`str.strip`, `str.lower`,
  `str.replace`, the truthiness of strings, the builtin `float` parser);
* the form normalizer `parse_form` and the boolean coercion `to_bool`;
* the derived score `calc_access_score` over the `FEATURES` table;
* the database rows and the routes `index` (filter + order), `new_resort`,
  `edit_resort`, `view_resort`, `delete_resort`, with the SQL semantics of
  the generated `WHERE`/`ORDER BY` clauses made explicit.

Abstractions (stated where used): the builtin `float` is modelled over exact
rationals (IEEE-754 rounding, overflow to infinity, PEP 515 underscores and
non-ASCII digits are abstracted away); Python whitespace is the ASCII
whitespace set; timestamps are naturals.
-/

/-- Python special float results: a finite value (kept exact as a rational),
a signed infinity (`true` = negative), or nan. -/
inductive PyVal where
  | finite : ℚ → PyVal
  | inf : Bool → PyVal
  | nan : PyVal
deriving DecidableEq, Repr

/-- ASCII whitespace as stripped by Python's `str.strip()`. -/
def isPySpace (c : Char) : Bool :=
  c = ' ' || c = '\t' || c = '\n' || c = '\r' || c = '\x0b' || c = '\x0c'

/-- `str.strip()` on a character list: drop whitespace from both ends. -/
def pyStripList (l : List Char) : List Char :=
  ((l.dropWhile isPySpace).reverse.dropWhile isPySpace).reverse

/-- Python `str.strip()`. -/
def pyStrip (s : String) : String :=
  String.mk (pyStripList s.toList)

/-- Python `s.replace(",", ".")` (both arguments are single characters). -/
def commaToDot (s : String) : String :=
  String.mk (s.toList.map fun c => if c = ',' then '.' else c)

/-- Python `str.lower()` (ASCII case folding, character by character). -/
def pyLower (s : String) : String :=
  String.mk (s.toList.map Char.toLower)

/-- Numeric value of an ASCII digit character. -/
def digToNat (c : Char) : ℕ := c.toNat - 48

/-- Value of a digit string read in base 10. -/
def natOfDigits (l : List Char) : ℕ :=
  l.foldl (fun a c => 10 * a + digToNat c) 0

/-- Split a maximal leading run of ASCII digits off a character list. -/
def takeDigits : List Char → List Char × List Char
  | [] => ([], [])
  | c :: r =>
    if c.isDigit then
      let p := takeDigits r
      (c :: p.1, p.2)
    else ([], c :: r)

/-- Exponent magnitude after an optional sign: one or more digits consuming
the whole remaining input. -/
def parseExpMag (l : List Char) (sgn : ℤ) : Option ℤ :=
  let p := takeDigits l
  if p.1 = [] then none
  else if p.2 = [] then some (sgn * (natOfDigits p.1 : ℤ))
  else none

/-- Exponent body after the `e`/`E` marker: optional sign, then digits. -/
def parseExpTail (l : List Char) : Option ℤ :=
  match l with
  | '+' :: r => parseExpMag r 1
  | '-' :: r => parseExpMag r (-1)
  | _ => parseExpMag l 1

/-- Optional exponent part of a float literal; empty input means exponent 0,
anything else must be `e`/`E` followed by a signed digit run. -/
def parseExp : List Char → Option ℤ
  | [] => some 0
  | 'e' :: r => parseExpTail r
  | 'E' :: r => parseExpTail r
  | _ => none

/-- Exact rational value of the scientific literal `ip.fp × 10^e`, built
from core integer operations so that it evaluates by kernel reduction.
`sciQ_eq` below restates it in the familiar arithmetic form. -/
def sciQ (ip fp : List Char) (e : ℤ) : ℚ :=
  let n : ℤ := (natOfDigits ip : ℤ) * 10 ^ fp.length + (natOfDigits fp : ℤ)
  if 0 ≤ e then Rat.divInt (n * 10 ^ e.toNat) (10 ^ fp.length)
  else Rat.divInt n (10 ^ fp.length * 10 ^ (-e).toNat)

/-- Numeric float literal: `digits [. digits] [exp]` or `. digits [exp]`,
with at least one mantissa digit. Value kept as an exact rational. -/
def parseNumeric (l : List Char) : Option ℚ :=
  let ip := takeDigits l
  match ip.2 with
  | '.' :: r2 =>
    let fp := takeDigits r2
    if ip.1 = [] ∧ fp.1 = [] then none
    else
      match parseExp fp.2 with
      | some e => some (sciQ ip.1 fp.1 e)
      | none => none
  | rest =>
    if ip.1 = [] then none
    else
      match parseExp rest with
      | some e => some (sciQ ip.1 [] e)
      | none => none

/-- Unsigned body of `float(...)`: the case-insensitive words `inf`,
`infinity`, `nan`, or a numeric literal. -/
def parseUnsigned (l : List Char) : Option PyVal :=
  let low := l.map Char.toLower
  if low = "inf".toList || low = "infinity".toList then some (PyVal.inf false)
  else if low = "nan".toList then some PyVal.nan
  else
    match parseNumeric l with
    | some q => some (PyVal.finite q)
    | none => none

/-- Negation of a parsed float value (a leading `-` sign). -/
def negVal : PyVal → PyVal
  | .finite q => .finite (-q)
  | .inf b => .inf (!b)
  | .nan => .nan

/-- Python's builtin `float(s)`: strip whitespace, optional sign, then the
unsigned body; `none` models a raised `ValueError`. Values are exact
rationals (binary rounding and overflow-to-infinity are abstracted). -/
def pyFloat (s : String) : Option PyVal :=
  match pyStripList s.toList with
  | '+' :: r => parseUnsigned r
  | '-' :: r => (parseUnsigned r).map negVal
  | l => parseUnsigned l

/-- The `FEATURES` table of `app.py`: the eleven accessibility feature keys
with their Italian display labels. -/
def FEATURES : List (String × String) :=
  [("wheelchair_access", "Accessibile in carrozzina"),
   ("beach_walkway", "Passerella per il mare"),
   ("beach_bathroom_h", "Bagno H (spiaggia/struttura)"),
   ("beach_job_chair", "Sedia JOB"),
   ("accessible_room", "Camera accessibile"),
   ("restaurant_accessible", "Ristorante accessibile"),
   ("pool_accessible", "Piscina accessibile"),
   ("lift", "Ascensore"),
   ("disabled_parking", "Parcheggio disabili"),
   ("step_free_paths", "Percorsi senza barriere"),
   ("staff_assistance", "Assistenza/servizi inclusivi")]

/-- A submitted HTML form as `parse_form` sees it: `f.get(key)` yields the
raw string when the field was submitted and `None` otherwise. -/
structure Form where
  name : Option String := none
  region : Option String := none
  city : Option String := none
  website : Option String := none
  phone : Option String := none
  email : Option String := none
  price_week : Option String := none
  price_period : Option String := none
  price_notes : Option String := none
  status : Option String := none
  keep_flag : Option String := none
  notes : Option String := none
  wheelchair_access : Option String := none
  beach_walkway : Option String := none
  beach_bathroom_h : Option String := none
  beach_job_chair : Option String := none
  accessible_room : Option String := none
  restaurant_accessible : Option String := none
  pool_accessible : Option String := none
  lift : Option String := none
  disabled_parking : Option String := none
  step_free_paths : Option String := none
  staff_assistance : Option String := none
deriving DecidableEq, Repr

/-- The dictionary built by `parse_form`: the normalized record fields
(everything of a resort row except `id` and the two timestamps). -/
structure FormData where
  name : String
  region : Option String
  city : Option String
  website : Option String
  phone : Option String
  email : Option String
  price_week : Option PyVal
  price_period : Option String
  price_notes : Option String
  status : String
  keep_flag : Bool
  notes : Option String
  wheelchair_access : Bool
  beach_walkway : Bool
  beach_bathroom_h : Bool
  beach_job_chair : Bool
  accessible_room : Bool
  restaurant_accessible : Bool
  pool_accessible : Bool
  lift : Bool
  disabled_parking : Bool
  step_free_paths : Bool
  staff_assistance : Bool
deriving DecidableEq, Repr

/-- `to_bool(v)`: `str(v).lower()` is one of `"1"`, `"on"`, `"true"`,
`"yes"`; an absent value gives `str(None).lower() = "none"`, hence `false`. -/
def to_bool (v : Option String) : Bool :=
  match v with
  | none => false
  | some s => pyLower s = "1" || pyLower s = "on" || pyLower s = "true" || pyLower s = "yes"

/-- `(f.get(k) or "").strip() or None`: trim, empty becomes absent. -/
def strOpt (v : Option String) : Option String :=
  let s := pyStrip (v.getD "")
  if s = "" then none else some s

/-- `parse_form(f)` of `app.py`: field-by-field normalization of the raw
form, including the comma-tolerant price parse whose `ValueError` is
swallowed into an absent price. -/
def parseForm (f : Form) : FormData :=
  { name := (let s := pyStrip (f.name.getD ""); if s = "" then "Senza nome" else s)
    region := strOpt f.region
    city := strOpt f.city
    website := strOpt f.website
    phone := strOpt f.phone
    email := strOpt f.email
    price_week :=
      match strOpt f.price_week with
      | none => none
      | some s => pyFloat (commaToDot s)
    price_period := strOpt f.price_period
    price_notes := strOpt f.price_notes
    status :=
      match f.status with
      | none => "valutare"
      | some s => if s = "" then "valutare" else pyStrip s
    keep_flag := to_bool f.keep_flag
    notes := strOpt f.notes
    wheelchair_access := to_bool f.wheelchair_access
    beach_walkway := to_bool f.beach_walkway
    beach_bathroom_h := to_bool f.beach_bathroom_h
    beach_job_chair := to_bool f.beach_job_chair
    accessible_room := to_bool f.accessible_room
    restaurant_accessible := to_bool f.restaurant_accessible
    pool_accessible := to_bool f.pool_accessible
    lift := to_bool f.lift
    disabled_parking := to_bool f.disabled_parking
    step_free_paths := to_bool f.step_free_paths
    staff_assistance := to_bool f.staff_assistance }

/-- The form with every field absent. -/
def emptyForm : Form := {}

/-- A row of the `resorts` table: the serial `id`, the record fields (one
per column written by `parse_form`), and the two nullable timestamps. -/
structure Row where
  id : ℕ
  data : FormData
  created_at : Option ℕ
  updated_at : Option ℕ
deriving DecidableEq, Repr

/-- The relational store: the table rows plus the `BIGSERIAL` counter that
hands out the next primary key. -/
structure DB where
  rows : List Row
  nextId : ℕ
deriving DecidableEq, Repr

/-- What a route hands back to the framework: a redirect to the list view,
a redirect to a record's detail view, or a rendered page. -/
inductive Response where
  | redirectIndex : Response
  | redirectView : ℕ → Response
  | page : Response
deriving DecidableEq, Repr

/-- `getattr(obj, key, False)` for the feature keys used by
`calc_access_score`: dynamic attribute lookup on a row object. -/
def getFlag (d : FormData) (key : String) : Bool :=
  if key = "wheelchair_access" then d.wheelchair_access
  else if key = "beach_walkway" then d.beach_walkway
  else if key = "beach_bathroom_h" then d.beach_bathroom_h
  else if key = "beach_job_chair" then d.beach_job_chair
  else if key = "accessible_room" then d.accessible_room
  else if key = "restaurant_accessible" then d.restaurant_accessible
  else if key = "pool_accessible" then d.pool_accessible
  else if key = "lift" then d.lift
  else if key = "disabled_parking" then d.disabled_parking
  else if key = "step_free_paths" then d.step_free_paths
  else if key = "staff_assistance" then d.staff_assistance
  else false

/-- `calc_access_score(obj)`: `(have, total)` where `total = len(FEATURES)`
and `have` adds 1 for every feature key whose attribute is truthy. -/
def calc_access_score (r : Row) : ℕ × ℕ :=
  (FEATURES.foldl (fun acc kv => acc + (if getFlag r.data kv.1 then 1 else 0)) 0,
   FEATURES.length)

/-- The eleven feature flags of a row, in `FEATURES` order. -/
def flagsOf (r : Row) : List Bool :=
  [r.data.wheelchair_access, r.data.beach_walkway, r.data.beach_bathroom_h,
   r.data.beach_job_chair, r.data.accessible_room, r.data.restaurant_accessible,
   r.data.pool_accessible, r.data.lift, r.data.disabled_parking,
   r.data.step_free_paths, r.data.staff_assistance]

/-- The query parameters of the list route, as `request.args.get` sees
them: `some` when the parameter occurs in the URL, `none` otherwise. -/
structure Args where
  q : Option String := none
  region : Option String := none
  status : Option String := none
  only_access : Option String := none
  keep : Option String := none
deriving DecidableEq, Repr

/-- SQL `LIKE` pattern matching over character lists: `%` matches any run
of characters (tried as every suffix of the subject), `_` exactly one. -/
def likeMatch : List Char → List Char → Bool
  | [], s => s.isEmpty
  | '%' :: ps, s => s.tails.any fun s' => likeMatch ps s'
  | '_' :: ps, s =>
    match s with
    | [] => false
    | _ :: s' => likeMatch ps s'
  | p :: ps, s =>
    match s with
    | [] => false
    | c :: s' => (p = c) && likeMatch ps s'

/-- `ILIKE`: case-insensitive `LIKE`. -/
def ilike (pat s : String) : Bool :=
  likeMatch (pyLower pat).toList (pyLower s).toList

/-- The `q` filter: `(name ILIKE %q% OR city ILIKE %q% OR notes ILIKE %q%)`,
absent when `q` strips to empty; a NULL column never matches. -/
def qCond (a : Args) (r : Row) : Bool :=
  let q := pyStrip (a.q.getD "")
  if q = "" then true
  else
    let pat := "%" ++ q ++ "%"
    ilike pat r.data.name
      || (match r.data.city with | some c => ilike pat c | none => false)
      || (match r.data.notes with | some n => ilike pat n | none => false)

/-- The `region = %s` filter, absent when `region` strips to empty. -/
def regionCond (a : Args) (r : Row) : Bool :=
  let rg := pyStrip (a.region.getD "")
  if rg = "" then true else r.data.region = some rg

/-- The `status = %s` filter, absent when `status` strips to empty. -/
def statusCond (a : Args) (r : Row) : Bool :=
  let st := pyStrip (a.status.getD "")
  if st = "" then true else r.data.status = st

/-- The `keep_flag = TRUE` filter, added only when the raw `keep`
parameter equals `"1"`. -/
def keepCond (a : Args) (r : Row) : Bool :=
  if a.keep.getD "" = "1" then r.data.keep_flag else true

/-- The minimum-accessibility filter, added only when the raw
`only_access` parameter equals `"1"`. -/
def accessCond (a : Args) (r : Row) : Bool :=
  if a.only_access.getD "" = "1" then
    r.data.wheelchair_access && r.data.beach_bathroom_h
      && (r.data.beach_walkway || r.data.beach_job_chair)
  else true

/-- The full generated `WHERE` clause of the list route. -/
def rowMatches (a : Args) (r : Row) : Bool :=
  qCond a r && regionCond a r && statusCond a r && keepCond a r && accessCond a r

/-- `DESC NULLS LAST` comparison on a nullable timestamp column: `a` may
come weakly before `b`. -/
def descLE (a b : Option ℕ) : Bool :=
  match a, b with
  | some x, some y => y ≤ x
  | some _, none => true
  | none, none => true
  | none, some _ => false

/-- Strict version of `descLE`: `a` must come strictly before `b`. -/
def descLT (a b : Option ℕ) : Bool :=
  match a, b with
  | some x, some y => y < x
  | some _, none => true
  | none, _ => false

/-- The `ORDER BY updated_at DESC NULLS LAST, created_at DESC NULLS LAST`
relation: strictly earlier on `updated_at`, or tied on `updated_at` and
weakly earlier on `created_at`. -/
def rowLE (r1 r2 : Row) : Prop :=
  descLT r1.updated_at r2.updated_at = true
    ∨ (r1.updated_at = r2.updated_at ∧ descLE r1.created_at r2.created_at = true)

instance : DecidableRel rowLE := fun r1 r2 => by
  unfold rowLE; infer_instance

/-- `SELECT * FROM resorts WHERE ... ORDER BY ...`: the rows of the list
route, filtered by the generated predicate and sorted by the order-by
relation. -/
def indexRows (a : Args) (db : DB) : List Row :=
  List.insertionSort rowLE (db.rows.filter (rowMatches a))

/-- The list the `index` route renders: each surviving row paired with its
access score. -/
def index (a : Args) (db : DB) : List (Row × ℕ × ℕ) :=
  (indexRows a db).map fun r => (r, calc_access_score r)

/-- `SELECT * FROM resorts WHERE id = %s` followed by `fetchone()`. -/
def fetchRow (db : DB) (id : ℕ) : Option Row :=
  db.rows.find? fun r => r.id == id

/-- Applying the `UPDATE` of `edit_resort` to one row: every `parse_form`
column and `updated_at` are overwritten; `id` and `created_at` are not in
the `SET` list and stay. -/
def updateRow (r : Row) (d : FormData) (now : ℕ) : Row :=
  { id := r.id, data := d, created_at := r.created_at, updated_at := some now }

/-- The `POST /new` route: normalize the form, stamp both timestamps with
the current time, insert one row (the serial assigns the id), flash, and
redirect to the list view. -/
def new_resort (db : DB) (f : Form) (now : ℕ) : DB × Response :=
  let d := parseForm f
  ({ rows := db.rows ++ [{ id := db.nextId, data := d, created_at := some now,
                           updated_at := some now }],
     nextId := db.nextId + 1 },
   Response.redirectIndex)

/-- The `POST /edit/{id}` route: fetch the row (redirecting to the list on
a miss), normalize the form, stamp `updated_at`, overwrite the matching
row's columns, and redirect to the detail view. -/
def edit_resort (db : DB) (id : ℕ) (f : Form) (now : ℕ) : DB × Response :=
  match fetchRow db id with
  | none => (db, Response.redirectIndex)
  | some _ =>
    let d := parseForm f
    ({ db with
       rows := db.rows.map fun r => if r.id == id then updateRow r d now else r },
     Response.redirectView id)

/-- The `GET /view/{id}` route: render the record, or redirect to the list
with a notice when the id does not exist. -/
def view_resort (db : DB) (id : ℕ) : Response :=
  match fetchRow db id with
  | none => Response.redirectIndex
  | some _ => Response.page

/-- The `POST /delete/{id}` route: `DELETE FROM resorts WHERE id = %s`,
then redirect to the list view (whether or not a row was removed). -/
def delete_resort (db : DB) (id : ℕ) : DB × Response :=
  ({ db with rows := db.rows.filter fun r => !(r.id == id) }, Response.redirectIndex)

/-- `sciQ` in the familiar arithmetic form: integer part plus fractional
part over `10^digits`, scaled by the power of ten of the exponent. -/
lemma sciQ_eq (ip fp : List Char) (e : ℤ) :
    sciQ ip fp e
      = ((natOfDigits ip : ℚ) + (natOfDigits fp : ℚ) / (10 : ℚ) ^ fp.length) * (10 : ℚ) ^ e := by
  unfold sciQ
  split
  next h =>
    rw [Rat.divInt_eq_div]
    push_cast
    rw [show ((10:ℚ)^e) = 10 ^ e.toNat by rw [← zpow_natCast]; congr 1; omega]
    field_simp
  next h =>
    rw [Rat.divInt_eq_div]
    push_cast
    rw [show ((10:ℚ)^e) = ((10:ℚ) ^ (-e).toNat)⁻¹ by
      rw [← zpow_natCast, ← zpow_neg]; congr 1; omega]
    field_simp

/-- Statement-side classifier: an (unsigned) decimal numeral written with a
comma as decimal separator — digits, one `,`, digits, nothing else. -/
def decimalCommaNumeral (s : String) : Bool :=
  match (takeDigits s.toList).2 with
  | ',' :: r =>
    !(takeDigits s.toList).1.isEmpty && !(takeDigits r).1.isEmpty && (takeDigits r).2.isEmpty
  | _ => false

/-- Numeric value of a `decimalCommaNumeral`: the digits before the comma
plus the digits after it over the matching power of ten. -/
def decimalCommaValue (s : String) : ℚ :=
  match (takeDigits s.toList).2 with
  | ',' :: r =>
    (natOfDigits (takeDigits s.toList).1 : ℚ)
      + (natOfDigits (takeDigits r).1 : ℚ) / (10 : ℚ) ^ (takeDigits r).1.length
  | _ => 0

/-- Statement-side classifier: a plain decimal numeral — an optional sign
followed by digits with at most one decimal point and at least one digit
(no exponent marker, no words such as `inf` or `nan`). -/
def decimalNumeral (s : String) : Bool :=
  match s.toList with
  | '+' :: r => r.all (fun c => c.isDigit || c = '.') && r.any (fun c => c.isDigit)
      && decide (r.count '.' ≤ 1)
  | '-' :: r => r.all (fun c => c.isDigit || c = '.') && r.any (fun c => c.isDigit)
      && decide (r.count '.' ≤ 1)
  | l => l.all (fun c => c.isDigit || c = '.') && l.any (fun c => c.isDigit)
      && decide (l.count '.' ≤ 1)

/-- A sample submission that satisfies the minimum-accessibility rule
through the JOB-chair disjunct. -/
def accessibleForm : Form :=
  { emptyForm with name := some "Lido Blu", wheelchair_access := some "1",
                   beach_bathroom_h := some "on", beach_job_chair := some "yes" }

/-- A stored row built from `accessibleForm`. -/
def sampleRowA : Row := ⟨1, parseForm accessibleForm, some 1, some 1⟩

/-- A one-row store holding `sampleRowA`. -/
def sampleDbA : DB := ⟨[sampleRowA], 2⟩

/-- A stored row with every feature flag false. -/
def sampleRowB : Row := ⟨1, parseForm emptyForm, some 1, some 1⟩

/-- A one-row store holding `sampleRowB`. -/
def sampleDbB : DB := ⟨[sampleRowB], 2⟩

/-- A row agreeing with `sampleRowB` on every feature flag but differing in
name, city, id and timestamps. -/
def sampleRow2 : Row :=
  ⟨9, { parseForm emptyForm with name := "Altro", city := some "Rimini" }, none, none⟩

/-- `calc_access_score` explicitly: the count of true flags among the eleven
feature fields, out of `11`. -/
lemma calc_access_score_eq (r : Row) :
    calc_access_score r = ((flagsOf r).count true, 11) := by
  simp [calc_access_score, FEATURES, getFlag, flagsOf, List.count_cons]
  omega

lemma takeDigits_append_eq : ∀ l : List Char, (takeDigits l).1 ++ (takeDigits l).2 = l := by
  intro l
  induction l with
  | nil => rfl
  | cons c r ih =>
    by_cases hc : c.isDigit = true
    · simp [takeDigits, hc, ih]
    · simp [takeDigits, hc]

lemma takeDigits_all : ∀ l : List Char, ∀ c ∈ (takeDigits l).1, c.isDigit = true := by
  intro l
  induction l with
  | nil => intro c hc; simp [takeDigits] at hc
  | cons d r ih =>
    intro c hc
    by_cases hd : d.isDigit = true
    · simp only [takeDigits, hd, if_true, List.mem_cons] at hc
      rcases hc with rfl | hc
      · exact hd
      · exact ih c hc
    · simp [takeDigits, hd] at hc

lemma takeDigits_of_all : ∀ (a rest : List Char), (∀ c ∈ a, c.isDigit = true) →
    (rest = [] ∨ ∃ c r', rest = c :: r' ∧ c.isDigit = false) →
    takeDigits (a ++ rest) = (a, rest) := by
  intro a
  induction a with
  | nil =>
    intro rest _ hr
    rcases hr with rfl | ⟨c, r', rfl, hc⟩
    · rfl
    · simp [takeDigits, hc]
  | cons d a' ih =>
    intro rest ha hr
    have hd : d.isDigit = true := ha d (by simp)
    simp [takeDigits, hd, ih rest (fun c hc => ha c (by simp [hc])) hr]

lemma digit_not_space {c : Char} (h : c.isDigit = true) : isPySpace c = false := by
  by_contra hs
  rw [Bool.not_eq_false] at hs
  simp only [isPySpace, Bool.or_eq_true, decide_eq_true_eq] at hs
  rcases hs with ((((rfl | rfl) | rfl) | rfl) | rfl) | rfl <;> exact absurd h (by decide)

lemma dropWhile_no (p : Char → Bool) : ∀ (l : List Char), (∀ c ∈ l, p c = false) →
    l.dropWhile p = l := by
  intro l h
  cases l with
  | nil => rfl
  | cons c t => simp [List.dropWhile_cons, h c (by simp)]

lemma pyStripList_no (l : List Char) (h : ∀ c ∈ l, isPySpace c = false) :
    pyStripList l = l := by
  unfold pyStripList
  rw [dropWhile_no _ _ h, dropWhile_no _ _ (fun c hc => h c (List.mem_reverse.mp hc))]
  exact List.reverse_reverse l

lemma digit_ne_comma {c : Char} (h : c.isDigit = true) : c ≠ ',' :=
  fun he => absurd (he ▸ h) (by decide)

lemma map_repl_digits (x : List Char) (hx : ∀ c ∈ x, c.isDigit = true) :
    x.map (fun c => if c = ',' then '.' else c) = x := by
  induction x with
  | nil => rfl
  | cons c r ih =>
    simp only [List.map_cons, if_neg (digit_ne_comma (hx c (by simp)))]
    rw [ih fun c hc => hx c (by simp [hc])]

lemma commaToDot_decomp (u a r : List Char)
    (hu : u = a ++ ',' :: r) (ha : ∀ c ∈ a, c.isDigit = true)
    (hr : ∀ c ∈ r, c.isDigit = true) :
    (u.map fun c => if c = ',' then '.' else c) = a ++ '.' :: r := by
  subst hu
  simp only [List.map_append, List.map_cons]
  rw [map_repl_digits _ ha, map_repl_digits _ hr]
  simp

/-- The float parser on a digits-point-digits subject: it accepts and
returns the exact scientific value with exponent `0`. -/
lemma pyFloat_comma_digits (a b : List Char)
    (ha : ∀ c ∈ a, c.isDigit = true) (hb : ∀ c ∈ b, c.isDigit = true)
    (ha0 : a ≠ []) :
    pyFloat (String.mk (a ++ '.' :: b)) = some (PyVal.finite (sciQ a b 0)) := by
  have hns : ∀ c ∈ a ++ '.' :: b, isPySpace c = false := by
    intro c hc
    rcases List.mem_append.mp hc with hc | hc
    · exact digit_not_space (ha c hc)
    · rcases List.mem_cons.mp hc with rfl | hc
      · decide
      · exact digit_not_space (hb c hc)
  have hstr : pyStripList (String.mk (a ++ '.' :: b)).toList = a ++ '.' :: b :=
    pyStripList_no _ hns
  have hUnsigned : parseUnsigned (a ++ '.' :: b) = some (PyVal.finite (sciQ a b 0)) := by
    have hdotmem : ('.' : Char) ∈ List.map Char.toLower a ++ '.' :: List.map Char.toLower b := by
      simp
    have hinf : List.map Char.toLower a ++ '.' :: List.map Char.toLower b ≠ ['i', 'n', 'f'] :=
      fun he => by rw [he] at hdotmem; exact absurd hdotmem (by decide)
    have hinfy : List.map Char.toLower a ++ '.' :: List.map Char.toLower b
        ≠ ['i', 'n', 'f', 'i', 'n', 'i', 't', 'y'] :=
      fun he => by rw [he] at hdotmem; exact absurd hdotmem (by decide)
    have hnan : List.map Char.toLower a ++ '.' :: List.map Char.toLower b ≠ ['n', 'a', 'n'] :=
      fun he => by rw [he] at hdotmem; exact absurd hdotmem (by decide)
    have htd : takeDigits (a ++ '.' :: b) = (a, '.' :: b) :=
      takeDigits_of_all a ('.' :: b) ha (Or.inr ⟨'.', b, rfl, by decide⟩)
    have htb : takeDigits b = (b, []) := by
      have := takeDigits_of_all b [] hb (Or.inl rfl)
      simpa using this
    have hnum : parseNumeric (a ++ '.' :: b) = some (sciQ a b 0) := by
      unfold parseNumeric
      rw [htd]
      simp only [htb, parseExp]
      simp [ha0]
    simp [parseUnsigned, hinf, hinfy, hnan, hnum]
  unfold pyFloat
  rw [hstr]
  split
  next r heq =>
    rcases a with _ | ⟨a0, a'⟩
    · exact absurd rfl ha0
    · have he : a0 = '+' := by simpa using congrArg (fun l => l.headD ' ') heq
      exact absurd (ha a0 (by simp)) (by rw [he]; decide)
  next r heq =>
    rcases a with _ | ⟨a0, a'⟩
    · exact absurd rfl ha0
    · have he : a0 = '-' := by simpa using congrArg (fun l => l.headD ' ') heq
      exact absurd (ha a0 (by simp)) (by rw [he]; decide)
  next h1 h2 =>
    exact hUnsigned

/-- `find?` by id after mapping an id-preserving update over the rows. -/
lemma find?_map_update (id : ℕ) (g : Row → Row) (hg : ∀ r, (g r).id = r.id) :
    ∀ (rows : List Row) (old : Row),
      rows.find? (fun r => r.id == id) = some old →
      (rows.map fun r => if r.id == id then g r else r).find? (fun r => r.id == id)
        = some (g old)
  | [], old, h => by simp at h
  | a :: rs, old, h => by
    cases hb : (a.id == id) with
    | true =>
      simp only [List.find?_cons, hb] at h
      injection h with h
      subst h
      have he : a.id = id := by simpa using hb
      simp [List.map_cons, List.find?_cons, hg a, he]
    | false =>
      simp only [List.find?_cons, hb] at h
      simp only [List.map_cons, List.find?_cons, hb, Bool.false_eq_true, if_false]
      exact find?_map_update id g hg rs old h

/-- After a delete, a fetch of the same id finds nothing. -/
lemma fetch_delete (db : DB) (id : ℕ) :
    fetchRow (delete_resort db id).1 id = none := by
  unfold fetchRow delete_resort
  rw [List.find?_eq_none]
  intro x hx
  have hq := (List.mem_filter.mp hx).2
  simp at hq ⊢
  exact hq

/-- Deleting the same id twice leaves the store of the first delete. -/
lemma delete_idem (db : DB) (id : ℕ) :
    (delete_resort (delete_resort db id).1 id).1 = (delete_resort db id).1 := by
  unfold delete_resort
  simp [List.filter_filter]

lemma descLE_total (a b : Option ℕ) : descLE a b = true ∨ descLE b a = true := by
  cases a <;> cases b <;> simp [descLE] <;> omega

lemma descLE_trans {a b c : Option ℕ} (h1 : descLE a b = true) (h2 : descLE b c = true) :
    descLE a c = true := by
  cases a <;> cases b <;> cases c <;> simp [descLE] at * <;> omega

lemma descLT_trans {a b c : Option ℕ} (h1 : descLT a b = true) (h2 : descLT b c = true) :
    descLT a c = true := by
  cases a <;> cases b <;> cases c <;> simp [descLT] at * <;> omega

lemma desc_trichotomy (a b : Option ℕ) :
    descLT a b = true ∨ a = b ∨ descLT b a = true := by
  cases a <;> cases b <;> simp [descLT] <;> omega

instance : IsTotal Row rowLE :=
  ⟨fun r1 r2 => by
    rcases desc_trichotomy r1.updated_at r2.updated_at with h | h | h
    · exact Or.inl (Or.inl h)
    · rcases descLE_total r1.created_at r2.created_at with hc | hc
      · exact Or.inl (Or.inr ⟨h, hc⟩)
      · exact Or.inr (Or.inr ⟨h.symm, hc⟩)
    · exact Or.inr (Or.inl h)⟩

instance : IsTrans Row rowLE :=
  ⟨fun r1 r2 r3 h12 h23 => by
    rcases h12 with h12 | ⟨he12, hc12⟩
    · rcases h23 with h23 | ⟨he23, hc23⟩
      · exact Or.inl (descLT_trans h12 h23)
      · exact Or.inl (by rw [← he23]; exact h12)
    · rcases h23 with h23 | ⟨he23, hc23⟩
      · exact Or.inl (by rw [he12]; exact h23)
      · exact Or.inr ⟨he12.trans he23, descLE_trans hc12 hc23⟩⟩

/-- C1 (amended): when the `only_access` parameter is exactly the string
`"1"`, a row is in the listed sequence iff it is a stored row passing the
other active filters and satisfying wheelchair_access AND beach_bathroom_h
AND (beach_walkway OR beach_job_chair); a record failing any clause of that
predicate is excluded. -/
theorem C1_only_access (a : Args) (db : DB) (r : Row) (h : a.only_access = some "1") :
    r ∈ indexRows a db
      ↔ r ∈ db.rows ∧ qCond a r = true ∧ regionCond a r = true ∧ statusCond a r = true
          ∧ keepCond a r = true
          ∧ (r.data.wheelchair_access = true ∧ r.data.beach_bathroom_h = true
              ∧ (r.data.beach_walkway = true ∨ r.data.beach_job_chair = true)) := by
  rw [indexRows, List.mem_insertionSort, List.mem_filter]
  unfold rowMatches accessCond
  rw [h]
  simp [Bool.and_eq_true, Bool.or_eq_true, and_assoc]

/-- Witness for C1: with `only_access = "1"` and a store holding one row
that satisfies the rule through the JOB-chair disjunct, the row is listed. -/
theorem C1_only_access_witness :
    ({ only_access := some "1" } : Args).only_access = some "1"
      ∧ sampleRowA ∈ indexRows { only_access := some "1" } sampleDbA :=
  ⟨rfl, (C1_only_access { only_access := some "1" } sampleDbA sampleRowA rfl).mpr (by decide)⟩

/-- Counterexample to C1 as stated: `"yes"` is a truthy value in Python
(any nonempty string is), yet with `only_access = "yes"` the route applies
no accessibility filter — a row with every feature flag false is still
returned, contradicting the claim for truthy values other than `"1"`. -/
theorem C1_counterexample :
    "yes" ≠ ""
      ∧ sampleRowB ∈ indexRows { only_access := some "yes" } sampleDbB
      ∧ ¬(sampleRowB.data.wheelchair_access = true ∧ sampleRowB.data.beach_bathroom_h = true
          ∧ (sampleRowB.data.beach_walkway = true ∨ sampleRowB.data.beach_job_chair = true)) := by
  decide

/-- C2: a submitted `price_week` that (after trimming) is a decimal numeral
with a comma separator is stored as the exact value with a period
separator; a trimmed text whose comma-to-period form the float parser
rejects is stored absent — `parse_form` is total, so no error reaches the
caller. -/
theorem C2_price (f g : Form) (s t : String)
    (hs : f.price_week = some s) (h1 : decimalCommaNumeral (pyStrip s) = true)
    (ht : g.price_week = some t) (h2 : pyFloat (commaToDot (pyStrip t)) = none) :
    (parseForm f).price_week = some (PyVal.finite (decimalCommaValue (pyStrip s)))
      ∧ (parseForm g).price_week = none := by
  constructor
  · unfold decimalCommaNumeral at h1
    split at h1
    next r heq =>
      simp only [Bool.and_eq_true, Bool.not_eq_true'] at h1
      obtain ⟨⟨hA, hB⟩, hC⟩ := h1
      rw [List.isEmpty_eq_false] at hA hB
      rw [List.isEmpty_iff] at hC
      have ha : ∀ c ∈ (takeDigits (pyStrip s).toList).1, c.isDigit = true :=
        takeDigits_all _
      have hb : ∀ c ∈ (takeDigits r).1, c.isDigit = true := takeDigits_all r
      have hr : (takeDigits r).1 = r := by
        have := takeDigits_append_eq r
        rw [hC, List.append_nil] at this
        exact this
      have hldec : (pyStrip s).toList = (takeDigits (pyStrip s).toList).1 ++ ',' :: r := by
        have := takeDigits_append_eq (pyStrip s).toList
        rw [heq] at this
        exact this.symm
      have hne : pyStrip s ≠ "" := by
        intro he
        have h0 : (pyStrip s).toList = [] := by rw [he]; rfl
        rw [hldec] at h0
        exact absurd (List.append_eq_nil.mp h0).1 hA
      rw [hr] at hb
      have hcomma : commaToDot (pyStrip s)
          = String.mk ((takeDigits (pyStrip s).toList).1 ++ '.' :: r) := by
        unfold commaToDot
        congr 1
        exact commaToDot_decomp _ _ _ hldec ha hb
      have hpf : pyFloat (commaToDot (pyStrip s))
          = some (PyVal.finite (sciQ (takeDigits (pyStrip s).toList).1 r 0)) := by
        rw [hcomma]
        exact pyFloat_comma_digits _ _ ha hb hA
      have hval : decimalCommaValue (pyStrip s)
          = sciQ (takeDigits (pyStrip s).toList).1 r 0 := by
        rw [sciQ_eq, zpow_zero, mul_one]
        simp only [decimalCommaValue, heq, hr]
      simp only [parseForm, strOpt, hs, Option.getD_some, hne, if_neg hne, ite_false]
      rw [hpf, hval]
    next => exact absurd h1 (by simp)
  · simp only [parseForm, strOpt, ht, Option.getD_some]
    by_cases hc : pyStrip t = "" <;> simp [hc, h2]

/-- Witness for C2: `"12,50"` is stored as its exact comma-decimal value
and `"abc"` is stored absent. -/
theorem C2_price_witness :
    decimalCommaNumeral (pyStrip "12,50") = true
      ∧ pyFloat (commaToDot (pyStrip "abc")) = none
      ∧ (parseForm { emptyForm with price_week := some "12,50" }).price_week
          = some (PyVal.finite (decimalCommaValue (pyStrip "12,50")))
      ∧ (parseForm { emptyForm with price_week := some "abc" }).price_week = none := by
  have h := C2_price { emptyForm with price_week := some "12,50" }
    { emptyForm with price_week := some "abc" } "12,50" "abc" rfl (by decide) rfl (by decide)
  exact ⟨by decide, by decide, h.1, h.2⟩

/-- C3: an empty or whitespace-only submitted name is stored as the
placeholder `"Senza nome"`, any other submitted name is stored trimmed,
and consequently the stored name is never empty. -/
theorem C3_name (f g : Form) (s t : String)
    (hf : f.name = some s) (h1 : pyStrip s = "")
    (hg : g.name = some t) (h2 : pyStrip t ≠ "") :
    (parseForm f).name = "Senza nome" ∧ (parseForm g).name = pyStrip t
      ∧ ∀ h : Form, (parseForm h).name ≠ "" := by
  refine ⟨by simp [parseForm, hf, h1], by simp [parseForm, hg, h2], ?_⟩
  intro h
  by_cases hc : pyStrip (h.name.getD "") = "" <;> simp [parseForm, hc]

/-- Witness for C3: a whitespace-only name becomes `"Senza nome"`, a padded
name is stored trimmed. -/
theorem C3_name_witness :
    pyStrip "  " = "" ∧ pyStrip " Lido Azzurro " ≠ ""
      ∧ (parseForm { emptyForm with name := some "  " }).name = "Senza nome"
      ∧ (parseForm { emptyForm with name := some " Lido Azzurro " }).name
          = pyStrip " Lido Azzurro " := by
  have h := C3_name { emptyForm with name := some "  " }
    { emptyForm with name := some " Lido Azzurro " } "  " " Lido Azzurro "
    rfl (by decide) rfl (by decide)
  exact ⟨by decide, by decide, h.1, h.2.1⟩

/-- C4: `calc_access_score` returns the pair of the count of true flags
among exactly the eleven feature fields and the constant total `11`, and
two rows agreeing on those eleven fields get the same score regardless of
every other field. -/
theorem C4_calc_score (r s : Row) (h : flagsOf r = flagsOf s) :
    calc_access_score r = ((flagsOf r).count true, 11)
      ∧ calc_access_score r = calc_access_score s := by
  refine ⟨calc_access_score_eq r, ?_⟩
  rw [calc_access_score_eq r, calc_access_score_eq s, h]

/-- Witness for C4: two rows with the same (all-false) flags but different
name, city, id and timestamps score identically as `(0, 11)`. -/
theorem C4_calc_score_witness :
    flagsOf sampleRowB = flagsOf sampleRow2
      ∧ calc_access_score sampleRowB = ((flagsOf sampleRowB).count true, 11)
      ∧ calc_access_score sampleRowB = calc_access_score sampleRow2 := by
  have h := C4_calc_score sampleRowB sampleRow2 (by decide)
  exact ⟨by decide, h.1, h.2⟩

/-- C5 (amended): `POST /new` inserts exactly one new row whose
`created_at` and `updated_at` both equal the current time and whose id is
the serial's next value, then returns a redirect to the list view — the
assigned identifier is not part of what the route returns. -/
theorem C5_create (db : DB) (f : Form) (now : ℕ) :
    (new_resort db f now).1.rows
        = db.rows ++ [{ id := db.nextId, data := parseForm f,
                        created_at := some now, updated_at := some now }]
      ∧ (new_resort db f now).1.nextId = db.nextId + 1
      ∧ (new_resort db f now).2 = Response.redirectIndex :=
  ⟨rfl, rfl, rfl⟩

/-- Counterexample to C5 as stated: creating the same form in two stores
whose serials assign different ids (1 and 7) produces the identical
response, a redirect to the list view — so the response cannot convey the
assigned identifier to the caller. -/
theorem C5_counterexample :
    ((new_resort ⟨[], 1⟩ emptyForm 0).1.rows.map Row.id = [1])
      ∧ ((new_resort ⟨[], 7⟩ emptyForm 0).1.rows.map Row.id = [7])
      ∧ (new_resort ⟨[], 1⟩ emptyForm 0).2 = (new_resort ⟨[], 7⟩ emptyForm 0).2
      ∧ (new_resort ⟨[], 1⟩ emptyForm 0).2 = Response.redirectIndex := by
  decide

/-- C6 (amended): an absent or empty submitted status is stored as
`"valutare"`; otherwise the stored status is the trimmed submitted value
(so a whitespace-only submission is stored as the empty string, not as
`"valutare"`). -/
theorem C6_status (f g : Form) (s : String)
    (h1 : f.status = none ∨ f.status = some "")
    (h2 : g.status = some s) (h3 : s ≠ "") :
    (parseForm f).status = "valutare" ∧ (parseForm g).status = pyStrip s := by
  constructor
  · rcases h1 with h | h <;> simp [parseForm, h]
  · simp [parseForm, h2, h3]

/-- Witness for C6: no submitted status defaults to `"valutare"`, and a
padded status is stored trimmed. -/
theorem C6_status_witness :
    (parseForm emptyForm).status = "valutare"
      ∧ (parseForm { emptyForm with status := some " interessante " }).status
          = pyStrip " interessante " :=
  C6_status emptyForm { emptyForm with status := some " interessante " } " interessante "
    (Or.inl rfl) rfl (by decide)

/-- Counterexample to C6 as stated: a whitespace-only (blank) submitted
status is stored as `""` — neither the default `"valutare"` nor the
submitted value `" "`. -/
theorem C6_counterexample :
    (parseForm { emptyForm with status := some " " }).status ≠ "valutare"
      ∧ (parseForm { emptyForm with status := some " " }).status ≠ " " := by
  decide

/-- C7: updating an existing id overwrites every normalized form field,
leaves `created_at` unchanged, and sets `updated_at` to the current time,
which is ≥ the previous `updated_at` whenever the clock is monotone
(hypothesis `hclock`); the route then redirects to the detail view. -/
theorem C7_update (db : DB) (id : ℕ) (f : Form) (now : ℕ) (old : Row)
    (hf : fetchRow db id = some old)
    (hclock : old.updated_at.getD 0 ≤ now) :
    fetchRow (edit_resort db id f now).1 id = some (updateRow old (parseForm f) now)
      ∧ (updateRow old (parseForm f) now).created_at = old.created_at
      ∧ (updateRow old (parseForm f) now).data = parseForm f
      ∧ (updateRow old (parseForm f) now).updated_at = some now
      ∧ (∀ u : ℕ, old.updated_at = some u → u ≤ now)
      ∧ (edit_resort db id f now).2 = Response.redirectView id := by
  have hmap : (edit_resort db id f now).1
      = { db with
          rows := db.rows.map fun r => if r.id == id then updateRow r (parseForm f) now else r } := by
    unfold edit_resort
    rw [hf]
  have hresp : (edit_resort db id f now).2 = Response.redirectView id := by
    unfold edit_resort
    rw [hf]
  refine ⟨?_, rfl, rfl, rfl, ?_, hresp⟩
  · rw [hmap]
    exact find?_map_update id (fun r => updateRow r (parseForm f) now) (fun r => rfl)
      db.rows old hf
  · intro u hu
    rw [hu] at hclock
    simpa using hclock

/-- Witness for C7: editing the one stored row (last updated at 4) at time
10 keeps `created_at`, replaces the data with the new normalized form, and
stamps `updated_at = 10 ≥ 4`. -/
theorem C7_update_witness :
    fetchRow (edit_resort sampleDbB 1 accessibleForm 10).1 1
        = some (updateRow sampleRowB (parseForm accessibleForm) 10)
      ∧ (updateRow sampleRowB (parseForm accessibleForm) 10).created_at = sampleRowB.created_at
      ∧ (updateRow sampleRowB (parseForm accessibleForm) 10).data = parseForm accessibleForm
      ∧ (updateRow sampleRowB (parseForm accessibleForm) 10).updated_at = some 10
      ∧ (∀ u : ℕ, sampleRowB.updated_at = some u → u ≤ 10)
      ∧ (edit_resort sampleDbB 1 accessibleForm 10).2 = Response.redirectView 1 :=
  C7_update sampleDbB 1 accessibleForm 10 sampleRowB (by decide) (by decide)

/-- C8: deleting any id always succeeds with a redirect to the list view
(whether or not the id exists, so a second delete also succeeds and
changes nothing), and a subsequent fetch (and the detail view) of that id
finds nothing. -/
theorem C8_delete (db : DB) (id : ℕ) :
    fetchRow (delete_resort db id).1 id = none
      ∧ view_resort (delete_resort db id).1 id = Response.redirectIndex
      ∧ (delete_resort (delete_resort db id).1 id).1 = (delete_resort db id).1
      ∧ (delete_resort db id).2 = Response.redirectIndex
      ∧ (delete_resort (delete_resort db id).1 id).2 = Response.redirectIndex := by
  refine ⟨fetch_delete db id, ?_, delete_idem db id, rfl, rfl⟩
  unfold view_resort
  rw [fetch_delete db id]

/-- C9: the listed rows are a permutation of the rows passing the filters,
sorted by `updated_at` descending with nulls last, ties broken by
`created_at` descending with nulls last (the relation `rowLE`). -/
theorem C9_order (a : Args) (db : DB) :
    List.Sorted rowLE (indexRows a db)
      ∧ (indexRows a db).Perm (db.rows.filter (rowMatches a)) :=
  ⟨List.sorted_insertionSort rowLE _, List.perm_insertionSort rowLE _⟩

/-- C10: there are `price_week` submissions that are not decimal numerals —
`"1e3"`, `"inf"`, `"nan"` — yet are stored as present values (1000,
infinity, nan) because Python's float parser accepts them. -/
theorem C10_nondecimal :
    decimalNumeral "1e3" = false ∧ decimalNumeral "inf" = false ∧ decimalNumeral "nan" = false
      ∧ (parseForm { emptyForm with price_week := some "1e3" }).price_week
          = some (PyVal.finite 1000)
      ∧ (parseForm { emptyForm with price_week := some "inf" }).price_week
          = some (PyVal.inf false)
      ∧ (parseForm { emptyForm with price_week := some "nan" }).price_week
          = some PyVal.nan := by
  decide
